import Mathlib

set_option autoImplicit false
set_option linter.unusedVariables false

/-! Verification development for the elbo-sdk core.

Shallow embedding of the engine process channel (cpp/src/engine_client.cpp),
the shared-memory bridge and RAII segment wrapper (cpp/src/shm_bridge.cpp and
the SharedMemorySegment implementation), and the segment planner
(cpp/src/shm_manager_api.cpp, cpp/uid.cpp).

Environment effects (pipe reads, process spawn outcomes, OS shared-memory
calls, random draws) are passed in as explicit inputs, and the translated
control flow of each source function decides the result. -/

/-- Model of a boost::json value, keeping exactly the kind distinctions the
client code branches on: `is_object`, `is_int64`, `is_uint64`.  The numeric
payload of a double is irrelevant to the scanning logic and is dropped. -/
inductive JVal where
  | jnull
  | jbool (b : Bool)
  | jint (n : Int)
  | juint (n : Nat)
  | jdouble
  | jstr (s : String)
  | jarr (elems : List JVal)
  | jobj (fields : List (String × JVal))

/-- Kind test corresponding to `is_int64() || is_uint64()`. -/
def JVal.isIntKind : JVal → Bool
  | JVal.jint _ => true
  | JVal.juint _ => true
  | _ => false

def okKey : String := "ok"

def idKey : String := "id"

def emptyStr : String := ""

def errNotRunning : String := "engine not running"

def errReadFailed : String := "failed reading from engine stdout"

def errWriteFailed : String := "failed writing to engine stdin"

def errNotStarted : String := "Engine process not started or has terminated."

def errNoPath : String := "engine path not provided and could not be resolved"

def errSpawnFailed : String := "engine process failed to spawn"

def errDidNotStart : String := "engine process did not start"

def errZeroSize : String := "shared memory size must be > 0"

def errCreateFailed : String := "failed to create shared memory segment"

def errOpenFailed : String := "failed to open shared memory segment"

def errNameRequired : String := "shared memory name required when opening"

/-- Model of `boost::json::object::if_contains`: first binding of the key. -/
def objFind : List (String × JVal) → String → Option JVal
  | [], _ => none
  | kv :: rest, key => if kv.1 = key then some kv.2 else objFind rest key

/-- `EngineClient::Impl::ensure_newline`: when the string is nonempty and
its last character is not a newline, push a trailing newline; otherwise
leave it unchanged.  Modelled on the character list of the string. -/
def ensure_newline (s : String) : String :=
  if s.data ≠ [] ∧ s.data.getLast? ≠ some '\n' then String.mk (s.data ++ ['\n']) else s

/-- Whether a string ends in a newline character. -/
def endsWithNewline (s : String) : Bool := s.data.getLast? == some '\n'

/-- One attempt to read a line from the engine stdout pipe, as observed by
`Impl::read_line_unsafe`:
* `notRunning`: `is_running_unsafe()` was false or the pipe was absent;
* `ioError`: `read_until` failed with an error other than eof;
* `eofRead`: `read_until` hit eof having read 0 bytes (the function then
  reports success with an empty line);
* `gotLine s`: a line was read; `s` is its content with the trailing
  newline removed (possibly empty for a blank line). -/
inductive PipeRead where
  | notRunning
  | ioError
  | eofRead
  | gotLine (s : String)
deriving DecidableEq

/-- Result of `Impl::read_line_unsafe` on one read attempt. -/
def read_line : PipeRead → Except String String
  | PipeRead.notRunning => Except.error errNotRunning
  | PipeRead.ioError => Except.error errReadFailed
  | PipeRead.eofRead => Except.ok emptyStr
  | PipeRead.gotLine s => Except.ok s

/-- The shared read loop of `send_command` and `wait_for_response`: read a
line; propagate a read failure; skip empty lines; return the first line the
acceptance predicate takes; otherwise keep reading.  `none` means the
modelled read sequence was exhausted with the loop still running. -/
def scanLines (accept : String → Bool) : List PipeRead → Option (Except String String)
  | [] => none
  | r :: rest =>
    match read_line r with
    | Except.error e => some (Except.error e)
    | Except.ok s =>
      if s.isEmpty then scanLines accept rest
      else if accept s then some (Except.ok s) else scanLines accept rest

/-- The terminal test of `send_command` on a parse result: the value is a
JSON object (`none` covers both a parse error and a non-object value) and
the object contains an `ok` field. -/
def hasOkField : Option JVal → Bool
  | some (JVal.jobj fields) => (objFind fields okKey).isSome
  | _ => false

/-- Acceptance predicate of `send_command`: parse the line with
`boost::json::parse` (modelled by `parse`) and check for an `ok` field. -/
def acceptOk (parse : String → Option JVal) (s : String) : Bool :=
  hasOkField (parse s)

/-- Truncation of a 64-bit integer value to a signed 32-bit integer,
modelling `static_cast<int>` in `wait_for_response`. -/
def toInt32 (n : Int) : Int :=
  let m := n % 4294967296
  if m < 2147483648 then m else m - 4294967296

/-- The id extracted by `wait_for_response` from the value of the `id`
field: `int id = -1;` then overwritten through `static_cast<int>` only when
the value is of int64 or uint64 kind. -/
def idFromJVal : JVal → Int
  | JVal.jint n => toInt32 n
  | JVal.juint n => toInt32 (Int.ofNat n)
  | _ => -1

/-- The terminal test of `wait_for_response` on a parse result: the value
is a JSON object, the object contains an `id` field, and the extracted id
equals `expected`. -/
def idMatches (expected : Int) : Option JVal → Bool
  | some (JVal.jobj fields) =>
    match objFind fields idKey with
    | some v => decide (idFromJVal v = expected)
    | none => false
  | _ => false

/-- Acceptance predicate of `wait_for_response`: parse the line and check
the extracted id against the awaited one. -/
def acceptId (parse : String → Option JVal) (expected : Int) (s : String) : Bool :=
  idMatches expected (parse s)

/-- A read the scan loop skips: an eof read (surfaced as an empty line), or
a line that is empty or rejected by the acceptance predicate. -/
def nonQual (accept : String → Bool) : PipeRead → Bool
  | PipeRead.eofRead => true
  | PipeRead.gotLine s => s.isEmpty || !accept s
  | _ => false

/-- A line `send_command` is allowed to return: nonempty, parses as a JSON
object, and carries an `ok` field. -/
def qualifiesOk (parse : String → Option JVal) (s : String) : Bool :=
  !s.isEmpty && acceptOk parse s

/-- A line `wait_for_response expected` is allowed to return. -/
def qualifiesId (parse : String → Option JVal) (expected : Int) (s : String) : Bool :=
  !s.isEmpty && acceptId parse expected s

/-- `EngineClient::send_command`: fail when not running; write the command
line (`ensure_newline command_json`), failing when the pipe write fails;
then run the read loop with the `ok`-field predicate.  `running` models
`is_running_unsafe()` at entry and `writeOk` the success of the pipe
write. -/
def send_command (parse : String → Option JVal) (running writeOk : Bool)
    (command_json : String) (reads : List PipeRead) : Option (Except String String) :=
  if running = false then some (Except.error errNotStarted)
  else if writeOk = false then some (Except.error errWriteFailed)
  else scanLines (acceptOk parse) reads

/-- `EngineClient::wait_for_response`: fail when not running; then run the
read loop with the id-match predicate. -/
def wait_for_response (parse : String → Option JVal) (running : Bool)
    (expected_id : Int) (reads : List PipeRead) : Option (Except String String) :=
  if running = false then some (Except.error errNotStarted)
  else scanLines (acceptId parse expected_id) reads

/-- Owned resources of `EngineClient::Impl`: the io context, the child
process handle, and the two pipes, each a `unique_ptr` modelled as a flag
saying whether the handle is held. -/
structure EngineState where
  ctx : Bool
  child : Bool
  inPipe : Bool
  outPipe : Bool
deriving DecidableEq

/-- The default-constructed `Impl`: no resources held. -/
def EngineState.empty : EngineState :=
  { ctx := false, child := false, inPipe := false, outPipe := false }

/-- `Impl::is_running_unsafe`: `child && child->running()`.  `runningNow`
supplies the current value of `child->running()`. -/
def EngineState.is_running (s : EngineState) (runningNow : Bool) : Bool :=
  s.child && runningNow

/-- `EngineClient::start`.  `runningNow` models `child->running()` at the
idempotency check; `resolvedFallback` models the result of
`resolve_engine_binary_path()`; `spawn` models the process construction:
`none` when the constructor throws, `some r` when it yields a child whose
`running()` is `r`.  On the throwing paths all four resources are reset
before the error propagates. -/
def EngineState.start (s : EngineState) (runningNow : Bool)
    (engine_path resolvedFallback : String) (spawn : Option Bool) :
    EngineState × Except String Unit :=
  if s.is_running runningNow then (s, Except.ok ())
  else
    let resolved := if engine_path = emptyStr then resolvedFallback else engine_path
    if resolved = emptyStr then
      (s, Except.error errNoPath)
    else
      match spawn with
      | none => (EngineState.empty, Except.error errSpawnFailed)
      | some r =>
        if r = false then (EngineState.empty, Except.error errDidNotStart)
        else ({ ctx := true, child := true, inPipe := true, outPipe := true }, Except.ok ())

/-- The liveness readings `EngineClient::stop` makes on the child process:
at entry (`is_running_unsafe`), after `request_exit` plus the 2000 ms
sleep, and after the first `terminate` plus the 1000 ms sleep, and in the
final cleanup block. -/
structure StopBehavior where
  runAtStart : Bool
  runAfterQuit : Bool
  runAfterTerm : Bool
  runAtCleanup : Bool

/-- Observable outcome of `EngineClient::stop`: the resources left held,
the total milliseconds spent in the bounded sleeps, and whether the
`__quit__` sentinel line was written. -/
structure StopResult where
  state : EngineState
  sleptMs : Nat
  sentSentinel : Bool
deriving DecidableEq

/-- `EngineClient::stop`: return at once when no child handle is held;
otherwise, when the child is still running, write the `__quit__` sentinel
(best effort), request exit, sleep 2000 ms, and if the child is still
running terminate it and sleep 1000 ms more (terminating once again if it
still runs); finally reset all four resources on every path. -/
def EngineState.stop (s : EngineState) (b : StopBehavior) : StopResult :=
  if s.child = false then { state := s, sleptMs := 0, sentSentinel := false }
  else
    let slept := if b.runAtStart then 2000 + (if b.runAfterQuit then 1000 else 0) else 0
    { state := EngineState.empty, sleptMs := slept, sentSentinel := b.runAtStart }

/-- A shared-memory handle as returned by the bridge: mapped base address
(`0` standing for a null pointer), mapped size, and the two owned boost
objects (`internal_shm_handle`, `internal_region_handle`) as held-or-not
flags. -/
structure SharedMemoryHandle where
  address : Nat
  size : Nat
  shm : Bool
  region : Bool
deriving DecidableEq

/-- A zero-initialized `SharedMemoryHandle{}`. -/
def SharedMemoryHandle.null : SharedMemoryHandle :=
  { address := 0, size := 0, shm := false, region := false }

/-- `release_handle` (shm_bridge.cpp): delete the mapped region and the
shared-memory object, null the address, zero the size.  It performs no
call that removes the object from the OS namespace. -/
def release_handle (h : SharedMemoryHandle) : SharedMemoryHandle :=
  SharedMemoryHandle.null

/-- The OS shared-memory namespace: existing objects by name with their
current size. -/
def nsLookup : List (String × Nat) → String → Option Nat
  | [], _ => none
  | kv :: rest, n => if kv.1 = n then some kv.2 else nsLookup rest n

/-- `shm_unlink` semantics: remove the name from the namespace.  The
client build intentionally omits `remove_segment`; this models the
engine-side unlink. -/
def nsErase : List (String × Nat) → String → List (String × Nat)
  | [], _ => []
  | kv :: rest, n => if kv.1 = n then nsErase rest n else kv :: nsErase rest n

/-- `create_segment` (POSIX branch): `shared_memory_object(create_only, …)`
throws when the name already exists (namespace unchanged); otherwise the
object is created, truncated to `size`, and mapped.  `addr` supplies the
base address the OS chooses for the mapping. -/
def create_segment (ns : List (String × Nat)) (addr : Nat) (name : String) (size : Nat) :
    List (String × Nat) × Option SharedMemoryHandle :=
  if (nsLookup ns name).isSome then (ns, none)
  else ((name, size) :: ns,
    some { address := addr, size := size, shm := true, region := true })

/-- `open_segment`: `shared_memory_object(open_only, …)` throws when the
name does not exist; otherwise the whole object is mapped and the handle
reports the region address and size. -/
def open_segment (ns : List (String × Nat)) (addr : Nat) (name : String) :
    Option SharedMemoryHandle :=
  match nsLookup ns name with
  | none => none
  | some sz => some { address := addr, size := sz, shm := true, region := true }

/-- `SharedMemorySegment` fields: the handle, the stored name, and the
`closed_` flag. -/
structure Segment where
  handle : SharedMemoryHandle
  segName : String
  closed : Bool
deriving DecidableEq

/-- A default-constructed `SharedMemorySegment`. -/
def Segment.init : Segment :=
  { handle := SharedMemoryHandle.null, segName := emptyStr, closed := true }

/-- `SharedMemorySegment::reset_handle`: release the handle only when the
segment is open, then mark it closed. -/
def Segment.reset_handle (s : Segment) : Segment :=
  if s.closed then s else { s with handle := release_handle s.handle, closed := true }

/-- `SharedMemorySegment::is_closed`. -/
def Segment.is_closed (s : Segment) : Bool := s.closed

/-- `SharedMemorySegment::size`: returns `handle_.size`. -/
def Segment.size (s : Segment) : Nat := s.handle.size

/-- `SharedMemorySegment::address`: returns `handle_.address`. -/
def Segment.address (s : Segment) : Nat := s.handle.address

/-- One client-side segment together with the OS namespace it acts on. -/
structure SegSys where
  ns : List (String × Nat)
  seg : Segment
deriving DecidableEq

/-- `SharedMemorySegment::create`: reset the handle; fail on zero size;
substitute a generated `pshm_`-prefixed name for an empty one (`freshUid`
models `new_uid16()`); call `create_segment`; on an OS failure the error
propagates with the segment still closed; a handle with a null address or
zero size is rejected with `closed_` left true. -/
def SegSys.create (sys : SegSys) (freshUid name : String) (size : Nat) (addr : Nat) :
    SegSys × Except String Unit :=
  let seg0 := sys.seg.reset_handle
  if size = 0 then
    ({ sys with seg := seg0 }, Except.error errZeroSize)
  else
    let nm := if name = emptyStr then "pshm_" ++ freshUid else name
    match create_segment sys.ns addr nm size with
    | (ns2, none) =>
      ({ ns := ns2, seg := { seg0 with segName := nm } },
        Except.error errCreateFailed)
    | (ns2, some h) =>
      if h.address = 0 ∨ h.size = 0 then
        ({ ns := ns2, seg := { seg0 with segName := nm, handle := h, closed := true } },
          Except.error errCreateFailed)
      else
        ({ ns := ns2, seg := { seg0 with segName := nm, handle := h, closed := false } },
          Except.ok ())

/-- `SharedMemorySegment::open`: reset the handle; fail on an empty name;
call `open_segment`; reject a handle with a null address or zero size. -/
def SegSys.openSeg (sys : SegSys) (name : String) (addr : Nat) :
    SegSys × Except String Unit :=
  let seg0 := sys.seg.reset_handle
  if name = emptyStr then
    ({ sys with seg := seg0 }, Except.error errNameRequired)
  else
    match open_segment sys.ns addr name with
    | none =>
      ({ sys with seg := { seg0 with segName := name } },
        Except.error errOpenFailed)
    | some h =>
      if h.address = 0 ∨ h.size = 0 then
        ({ sys with seg := { seg0 with segName := name, handle := h, closed := true } },
          Except.error errOpenFailed)
      else
        ({ sys with seg := { seg0 with segName := name, handle := h, closed := false } },
          Except.ok ())

/-- `SharedMemorySegment::close`: just `reset_handle`; the namespace is
untouched (release_handle performs no removal and `remove_segment` is
omitted from the client build). -/
def SegSys.close (sys : SegSys) : SegSys :=
  { sys with seg := sys.seg.reset_handle }

/-- One client-side segment operation with its environment inputs. -/
inductive SegOp where
  | createOp (freshUid name : String) (size addr : Nat)
  | openOp (name : String) (addr : Nat)
  | closeOp

/-- Apply one operation, discarding the status result. -/
def SegSys.applyOp (sys : SegSys) : SegOp → SegSys
  | SegOp.createOp freshUid name size addr => (sys.create freshUid name size addr).1
  | SegOp.openOp name addr => (sys.openSeg name addr).1
  | SegOp.closeOp => sys.close

/-- Apply a sequence of create/open/close operations. -/
def SegSys.runOps (sys : SegSys) (ops : List SegOp) : SegSys :=
  ops.foldl SegSys.applyOp sys

/-- The hex digit table of `new_uid16` (uid.cpp). -/
def kHex : List Char :=
  ("0123456789abcdef").data

/-- `new_uid16` (uid.cpp): sixteen uniform draws from the hex table,
concatenated.  `draws` supplies the sixteen random indices. -/
def new_uid16 (draws : Fin 16 → Fin 16) : String :=
  String.mk (List.ofFn (fun i : Fin 16 => kHex.get (Fin.cast (by rfl) (draws i))))

/-- `StandardizeSegmentsPlan` (shm_manager_api.h). -/
structure StandardizeSegmentsPlan where
  uid : String
  verts_name : String
  edges_name : String
  rotations_name : String
  scales_name : String
  offsets_name : String
  verts_size : Nat
  edges_size : Nat
  rotations_size : Nat
  scales_size : Nat
  offsets_size : Nat
deriving DecidableEq

/-- `plan_standardize_segments` (shm_manager_api.cpp): sizes are computed
in `size_t` from `uint32_t` counts, so the products are exact (no 64-bit
overflow is possible); one uid is generated and shared by all five
names. -/
def plan_standardize_segments (draws : Fin 16 → Fin 16)
    (total_verts total_edges total_objects : Nat) : StandardizeSegmentsPlan :=
  let uid := new_uid16 draws
  { uid := uid
    verts_name := "sp_v_" ++ uid
    edges_name := "sp_e_" ++ uid
    rotations_name := "sp_r_" ++ uid
    scales_name := "sp_s_" ++ uid
    offsets_name := "sp_o_" ++ uid
    verts_size := total_verts * 3 * 4
    edges_size := total_edges * 2 * 4
    rotations_size := total_objects * 4 * 4
    scales_size := total_objects * 3 * 4
    offsets_size := total_objects * 3 * 4 }

/-- `FaceSizesPlan` (shm_manager_api.h). -/
structure FaceSizesPlan where
  uid : String
  face_sizes_name : String
  face_sizes_size : Nat
deriving DecidableEq

/-- `plan_face_sizes_segment`: fresh uid, one uint32 per face. -/
def plan_face_sizes_segment (draws : Fin 16 → Fin 16) (total_faces_count : Nat) :
    FaceSizesPlan :=
  let uid := new_uid16 draws
  { uid := uid, face_sizes_name := "sp_fs_" ++ uid, face_sizes_size := total_faces_count * 4 }

/-- `FacesPlan` (shm_manager_api.h). -/
structure FacesPlan where
  faces_name : String
  faces_size : Nat
deriving DecidableEq

/-- `plan_faces_segment`: reuses the uid passed in; it takes no random
draws, so no uid is generated. -/
def plan_faces_segment (total_face_vertices : Nat) (uid : String) : FacesPlan :=
  { faces_name := "sp_f_" ++ uid, faces_size := total_face_vertices * 4 }

/-- The segment invariant of the spec, restricted to what the code
maintains: an open segment is fully mapped (non-null address, positive
size). -/
def SegInv (s : Segment) : Prop :=
  s.closed = false → s.handle.address ≠ 0 ∧ s.handle.size > 0

/-- Concrete response lines used to evaluate the channel model. -/
def lineOk : String := "respOk"

def lineJunk : String := "junk"

def lineId7 : String := "respId7"

def lineId8 : String := "respId8"

def lineBigId : String := "respBigId"

def lineStrId : String := "respStrId"

def cmdLine : String := "classify"

def uidA : String := "aaaabbbbccccdddd"

def segTestName : String := "segA"

def enginePathA : String := "enginebin"

/-- A concrete parse oracle for evaluating the channel model on the lines
above, consistent with what `boost::json::parse` would yield on the
corresponding JSON texts (note 4294967303 fits in int64, so boost parses
it with int64 kind). -/
def testParse : String → Option JVal := fun s =>
  if s = lineOk then some (JVal.jobj [(okKey, JVal.jbool true)])
  else if s = lineId7 then some (JVal.jobj [(idKey, JVal.jint 7)])
  else if s = lineId8 then some (JVal.jobj [(idKey, JVal.jint 8)])
  else if s = lineBigId then some (JVal.jobj [(idKey, JVal.jint 4294967303)])
  else if s = lineStrId then some (JVal.jobj [(idKey, JVal.jstr emptyStr)])
  else none

/-- Unfolding of the read loop at a line read. -/
theorem scanLines_cons_gotLine (accept : String → Bool) (s : String) (rest : List PipeRead) :
    scanLines accept (PipeRead.gotLine s :: rest) =
      if s.isEmpty then scanLines accept rest
      else if accept s then some (Except.ok s) else scanLines accept rest := rfl

/-- An eof read surfaces as an empty line and is skipped by the loop. -/
theorem scanLines_cons_eof (accept : String → Bool) (rest : List PipeRead) :
    scanLines accept (PipeRead.eofRead :: rest) = scanLines accept rest := rfl

/-- A dead-process read fails the loop immediately. -/
theorem scanLines_cons_notRunning (accept : String → Bool) (rest : List PipeRead) :
    scanLines accept (PipeRead.notRunning :: rest) =
      some (Except.error errNotRunning) := rfl

/-- A pipe read error fails the loop immediately. -/
theorem scanLines_cons_ioError (accept : String → Bool) (rest : List PipeRead) :
    scanLines accept (PipeRead.ioError :: rest) =
      some (Except.error errReadFailed) := rfl

/-- A skipped read leaves the loop result unchanged. -/
theorem scanLines_skip (accept : String → Bool) (r : PipeRead) (rest : List PipeRead)
    (h : nonQual accept r = true) :
    scanLines accept (r :: rest) = scanLines accept rest := by
  cases r with
  | notRunning => simp [nonQual] at h
  | ioError => simp [nonQual] at h
  | eofRead => exact scanLines_cons_eof accept rest
  | gotLine s =>
    rw [scanLines_cons_gotLine]
    by_cases he : s.isEmpty = true
    · simp [he]
    · have ha : accept s = false := by
        simp [nonQual, he] at h
        exact h
      simp [he, ha]

/-- Any line the read loop returns was accepted by the predicate. -/
theorem scanLines_sound (accept : String → Bool) :
    ∀ (reads : List PipeRead) (l : String),
      scanLines accept reads = some (Except.ok l) →
      l.isEmpty = false ∧ accept l = true := by
  intro reads
  induction reads with
  | nil => intro l h; simp [scanLines] at h
  | cons r rest ih =>
    intro l h
    cases r with
    | notRunning => rw [scanLines_cons_notRunning] at h; simp at h
    | ioError => rw [scanLines_cons_ioError] at h; simp at h
    | eofRead => rw [scanLines_cons_eof] at h; exact ih l h
    | gotLine s =>
      rw [scanLines_cons_gotLine] at h
      by_cases he : s.isEmpty = true
      · rw [if_pos he] at h; exact ih l h
      · rw [if_neg he] at h
        by_cases ha : accept s = true
        · rw [if_pos ha] at h
          simp at h
          subst h
          exact ⟨Bool.not_eq_true s.isEmpty ▸ he, ha⟩
        · rw [if_neg ha] at h; exact ih l h

/-- Any line the read loop returns is the first read in the sequence that
the predicate accepts; everything before it is a skipped read. -/
theorem scanLines_first (accept : String → Bool) :
    ∀ (reads : List PipeRead) (l : String),
      scanLines accept reads = some (Except.ok l) →
      ∃ pre post, reads = pre ++ PipeRead.gotLine l :: post ∧
        ∀ x ∈ pre, nonQual accept x = true := by
  intro reads
  induction reads with
  | nil => intro l h; simp [scanLines] at h
  | cons r rest ih =>
    intro l h
    cases r with
    | notRunning => rw [scanLines_cons_notRunning] at h; simp at h
    | ioError => rw [scanLines_cons_ioError] at h; simp at h
    | eofRead =>
      rw [scanLines_cons_eof] at h
      obtain ⟨pre, post, hsplit, hpre⟩ := ih l h
      refine ⟨PipeRead.eofRead :: pre, post, by rw [hsplit]; rfl, ?_⟩
      intro x hx
      rcases List.mem_cons.mp hx with hx | hx
      · subst hx; rfl
      · exact hpre x hx
    | gotLine s =>
      rw [scanLines_cons_gotLine] at h
      by_cases he : s.isEmpty = true
      · rw [if_pos he] at h
        obtain ⟨pre, post, hsplit, hpre⟩ := ih l h
        refine ⟨PipeRead.gotLine s :: pre, post, by rw [hsplit]; rfl, ?_⟩
        intro x hx
        rcases List.mem_cons.mp hx with hx | hx
        · subst hx; simp [nonQual, he]
        · exact hpre x hx
      · rw [if_neg he] at h
        by_cases ha : accept s = true
        · rw [if_pos ha] at h
          simp at h
          subst h
          exact ⟨[], rest, rfl, by intro x hx; simp at hx⟩
        · rw [if_neg ha] at h
          obtain ⟨pre, post, hsplit, hpre⟩ := ih l h
          refine ⟨PipeRead.gotLine s :: pre, post, by rw [hsplit]; rfl, ?_⟩
          intro x hx
          rcases List.mem_cons.mp hx with hx | hx
          · subst hx
            simp [nonQual, ha]
          · exact hpre x hx

/-- Conversely: however many skipped reads precede it, the first accepted
line is returned. -/
theorem scanLines_complete (accept : String → Bool) :
    ∀ (pre : List PipeRead) (l : String) (post : List PipeRead),
      (∀ x ∈ pre, nonQual accept x = true) →
      l.isEmpty = false → accept l = true →
      scanLines accept (pre ++ PipeRead.gotLine l :: post) = some (Except.ok l) := by
  intro pre
  induction pre with
  | nil =>
    intro l post _ hl ha
    rw [List.nil_append, scanLines_cons_gotLine, if_neg (by simp [hl]), if_pos ha]
  | cons r rest ih =>
    intro l post hpre hl ha
    rw [List.cons_append, scanLines_skip accept r _ (hpre r (List.mem_cons_self r rest))]
    exact ih l post (fun x hx => hpre x (List.mem_cons_of_mem r hx)) hl ha

/-- When the stream ends: any number of eof reads followed by the
dead-process observation produce the hard read failure, whatever comes
after (no retry). -/
theorem scanLines_eof_then_dead (accept : String → Bool) :
    ∀ (k : Nat) (rest : List PipeRead),
      scanLines accept (List.replicate k PipeRead.eofRead ++ PipeRead.notRunning :: rest) =
        some (Except.error errNotRunning) := by
  intro k
  induction k with
  | zero => intro rest; rw [List.replicate_zero, List.nil_append, scanLines_cons_notRunning]
  | succ n ih =>
    intro rest
    rw [List.replicate_succ, List.cons_append, scanLines_cons_eof]
    exact ih rest

/-- What `hasOkField` being true reveals about the parse result. -/
theorem hasOkField_spec (ov : Option JVal) (h : hasOkField ov = true) :
    ∃ fields, ov = some (JVal.jobj fields) ∧ (objFind fields okKey).isSome = true := by
  cases ov with
  | none => simp [hasOkField] at h
  | some v =>
    cases v with
    | jobj fields => exact ⟨fields, rfl, h⟩
    | jnull => simp [hasOkField] at h
    | jbool b => simp [hasOkField] at h
    | jint n => simp [hasOkField] at h
    | juint n => simp [hasOkField] at h
    | jdouble => simp [hasOkField] at h
    | jstr s => simp [hasOkField] at h
    | jarr elems => simp [hasOkField] at h

/-- What `idMatches` being true reveals about the parse result. -/
theorem idMatches_spec (expected : Int) (ov : Option JVal) (h : idMatches expected ov = true) :
    ∃ fields v, ov = some (JVal.jobj fields) ∧ objFind fields idKey = some v ∧
      idFromJVal v = expected := by
  cases ov with
  | none => simp [idMatches] at h
  | some v =>
    cases v with
    | jobj fields =>
      cases hf : objFind fields idKey with
      | none => simp [idMatches, hf] at h
      | some w =>
        refine ⟨fields, w, rfl, hf, ?_⟩
        simpa [idMatches, hf] using h
    | jnull => simp [idMatches] at h
    | jbool b => simp [idMatches] at h
    | jint n => simp [idMatches] at h
    | juint n => simp [idMatches] at h
    | jdouble => simp [idMatches] at h
    | jstr s => simp [idMatches] at h
    | jarr elems => simp [idMatches] at h

/-- C1 fails as stated at the empty command string: `send_command` writes
`ensure_newline` of the command, and for the empty command no trailing
newline is appended — the written bytes are empty and end in no newline,
so the command is not written as one newline-terminated line. -/
theorem C1_counterexample :
    ensure_newline emptyStr = emptyStr ∧
    endsWithNewline (ensure_newline emptyStr) = false := by
  constructor
  · rfl
  · rfl

/-- C1 (amended): for every nonempty command string, `send_command` writes
it as one line, appending a trailing newline if absent (the empty command
is written unchanged, with no newline appended); and the read loop never
returns a line lacking an `ok` field: every line that fails to parse as a
JSON object or parses without an `ok` field is silently skipped without
affecting the result, and the first line containing an `ok` field is
returned verbatim regardless of how many non-qualifying reads precede
it. -/
theorem C1_send_command_contract (parse : String → Option JVal) (cmd l : String)
    (reads pre post : List PipeRead) (r : PipeRead) :
    (cmd ≠ emptyStr →
      endsWithNewline (ensure_newline cmd) = true ∧
      (ensure_newline cmd = cmd ∨ (ensure_newline cmd).data = cmd.data ++ ['\n'])) ∧
    (send_command parse true true cmd reads = some (Except.ok l) →
      (∃ fields, parse l = some (JVal.jobj fields) ∧ (objFind fields okKey).isSome = true) ∧
      ∃ pre2 post2, reads = pre2 ++ PipeRead.gotLine l :: post2 ∧
        ∀ x ∈ pre2, nonQual (acceptOk parse) x = true) ∧
    ((∀ x ∈ pre, nonQual (acceptOk parse) x = true) → qualifiesOk parse l = true →
      send_command parse true true cmd (pre ++ PipeRead.gotLine l :: post) =
        some (Except.ok l)) ∧
    (nonQual (acceptOk parse) r = true →
      send_command parse true true cmd (r :: reads) = send_command parse true true cmd reads) := by
  have hsc : ∀ rs : List PipeRead,
      send_command parse true true cmd rs = scanLines (acceptOk parse) rs := by
    intro rs; rfl
  refine ⟨?_, ?_, ?_, ?_⟩
  · intro hcmd
    have hdata : cmd.data ≠ [] := by
      intro hd
      exact hcmd (String.ext hd)
    by_cases hlast : cmd.data.getLast? = some '\n'
    · have : ensure_newline cmd = cmd := by
        rw [ensure_newline, if_neg]
        intro hc
        exact hc.2 hlast
      rw [this]
      refine ⟨?_, Or.inl rfl⟩
      rw [endsWithNewline, hlast]
      rfl
    · have : ensure_newline cmd = String.mk (cmd.data ++ ['\n']) := by
        rw [ensure_newline, if_pos ⟨hdata, hlast⟩]
      rw [this]
      constructor
      · rw [endsWithNewline]
        show (cmd.data ++ ['\n']).getLast? == some '\n'
        rw [List.getLast?_concat]
        rfl
      · exact Or.inr rfl
  · intro h
    rw [hsc] at h
    have hs := scanLines_sound (acceptOk parse) reads l h
    obtain ⟨fields, hp, hok⟩ := hasOkField_spec (parse l) hs.2
    exact ⟨⟨fields, hp, hok⟩, scanLines_first (acceptOk parse) reads l h⟩
  · intro hpre hq
    rw [hsc]
    have hq2 := hq
    rw [qualifiesOk] at hq2
    have hl : l.isEmpty = false := by
      cases hie : l.isEmpty
      · rfl
      · rw [hie] at hq2; simp at hq2
    have ha : acceptOk parse l = true := by
      rw [hl] at hq2
      simpa using hq2
    exact scanLines_complete (acceptOk parse) pre l post hpre hl ha
  · intro hr
    rw [hsc, hsc]
    exact scanLines_skip (acceptOk parse) r reads hr

/-- Witness for C1 at concrete inputs: the nonempty command gains its
newline, and a junk line plus an eof read before the qualifying line do
not affect the result. -/
theorem C1_witness :
    endsWithNewline (ensure_newline cmdLine) = true ∧
    send_command testParse true true cmdLine
        [PipeRead.gotLine lineJunk, PipeRead.eofRead, PipeRead.gotLine lineOk] =
      some (Except.ok lineOk) :=
  ⟨((C1_send_command_contract testParse cmdLine lineOk [] [] []
      PipeRead.eofRead).1 (by decide)).1,
   (C1_send_command_contract testParse cmdLine lineOk []
      [PipeRead.gotLine lineJunk, PipeRead.eofRead] [] PipeRead.eofRead).2.2.1
      (by decide) (by decide)⟩

/-- C2 fails as stated: `wait_for_response` compares ids after a
`static_cast<int>` truncation, so a reply whose `id` is the int64 value
4294967303 (which is 2^32 + 7) is accepted and returned by
`wait_for_response 7` although its id is not numerically equal to 7. -/
theorem C2_counterexample :
    wait_for_response testParse true 7 [PipeRead.gotLine lineBigId] =
      some (Except.ok lineBigId) ∧
    testParse lineBigId = some (JVal.jobj [(idKey, JVal.jint 4294967303)]) ∧
    (4294967303 : Int) ≠ 7 := by
  refine ⟨rfl, rfl, by decide⟩

/-- C2 (amended): `wait_for_response expected_id` returns only a line that
parses as a JSON object whose `id` field is present and whose signed or
unsigned integer value, truncated to a signed 32-bit integer, equals
`expected_id`; every other well-formed line — including a reply carrying a
different id — is discarded without being buffered, and the first
qualifying line is returned however many discarded reads precede it. -/
theorem C2_wait_for_response_contract (parse : String → Option JVal) (expected : Int)
    (l : String) (reads pre post : List PipeRead) (r : PipeRead) :
    (wait_for_response parse true expected reads = some (Except.ok l) →
      ∃ fields v, parse l = some (JVal.jobj fields) ∧ objFind fields idKey = some v ∧
        idFromJVal v = expected) ∧
    ((∀ x ∈ pre, nonQual (acceptId parse expected) x = true) →
      qualifiesId parse expected l = true →
      wait_for_response parse true expected (pre ++ PipeRead.gotLine l :: post) =
        some (Except.ok l)) ∧
    (nonQual (acceptId parse expected) r = true →
      wait_for_response parse true expected (r :: reads) =
        wait_for_response parse true expected reads) := by
  have hwr : ∀ rs : List PipeRead,
      wait_for_response parse true expected rs = scanLines (acceptId parse expected) rs := by
    intro rs; rfl
  refine ⟨?_, ?_, ?_⟩
  · intro h
    rw [hwr] at h
    have hs := scanLines_sound (acceptId parse expected) reads l h
    exact idMatches_spec expected (parse l) hs.2
  · intro hpre hq
    rw [hwr]
    have hq2 := hq
    rw [qualifiesId] at hq2
    have hl : l.isEmpty = false := by
      cases hie : l.isEmpty
      · rfl
      · rw [hie] at hq2; simp at hq2
    have ha : acceptId parse expected l = true := by
      rw [hl] at hq2
      simpa using hq2
    exact scanLines_complete (acceptId parse expected) pre l post hpre hl ha
  · intro hr
    rw [hwr, hwr]
    exact scanLines_skip (acceptId parse expected) r reads hr

/-- Witness for C2 at concrete inputs: a reply with id 8 arriving first is
discarded and the line with id 7 is returned. -/
theorem C2_witness :
    wait_for_response testParse true 7
        [PipeRead.gotLine lineId8, PipeRead.gotLine lineId7] =
      some (Except.ok lineId7) :=
  (C2_wait_for_response_contract testParse 7 lineId7 []
      [PipeRead.gotLine lineId8] [] PipeRead.eofRead).2.1 (by decide) (by decide)

/-- C4: `send_command` reports a hard failure when the process is not
running, when the pipe write fails, and when the read stream ends — any
number of eof reads followed by the dead-process observation — before a
line with an `ok` field appears; in each case the error is immediate and
no retry is attempted (the remaining reads are never consulted). -/
theorem C4_send_command_failures (parse : String → Option JVal) (cmd : String)
    (reads rest : List PipeRead) (writeOk : Bool) (k : Nat) :
    send_command parse false writeOk cmd reads = some (Except.error errNotStarted) ∧
    send_command parse true false cmd reads = some (Except.error errWriteFailed) ∧
    send_command parse true true cmd
        (List.replicate k PipeRead.eofRead ++ PipeRead.notRunning :: rest) =
      some (Except.error errNotRunning) ∧
    send_command parse true true cmd (PipeRead.ioError :: rest) =
      some (Except.error errReadFailed) := by
  refine ⟨rfl, rfl, ?_, ?_⟩
  · show scanLines (acceptOk parse) _ = _
    exact scanLines_eof_then_dead (acceptOk parse) k rest
  · show scanLines (acceptOk parse) _ = _
    exact scanLines_cons_ioError (acceptOk parse) rest

/-- C10: a well-formed object line whose `id` field is not of int64 or
uint64 kind yields the default id -1, so `wait_for_response (-1)` accepts
and returns it. -/
theorem C10_nonint_id_matches_default (parse : String → Option JVal)
    (rest : List PipeRead) (s : String) (fields : List (String × JVal)) (v : JVal)
    (hp : parse s = some (JVal.jobj fields)) (hf : objFind fields idKey = some v)
    (hk : JVal.isIntKind v = false) (hs : s.isEmpty = false) :
    idFromJVal v = -1 ∧
    wait_for_response parse true (-1) (PipeRead.gotLine s :: rest) =
      some (Except.ok s) := by
  have hid : idFromJVal v = -1 := by
    cases v with
    | jint n => simp [JVal.isIntKind] at hk
    | juint n => simp [JVal.isIntKind] at hk
    | jnull => rfl
    | jbool b => rfl
    | jdouble => rfl
    | jstr t => rfl
    | jarr elems => rfl
    | jobj flds => rfl
  refine ⟨hid, ?_⟩
  show scanLines (acceptId parse (-1)) _ = _
  rw [scanLines_cons_gotLine, if_neg (by simp [hs])]
  rw [if_pos ?_]
  rw [acceptId, hp, idMatches, hf]
  simp [hid]

/-- Witness for C10 at concrete inputs: a reply whose id is a JSON string
is returned by `wait_for_response (-1)`. -/
theorem C10_witness :
    wait_for_response testParse true (-1) [PipeRead.gotLine lineStrId] =
      some (Except.ok lineStrId) :=
  (C10_nonint_id_matches_default testParse [] lineStrId
      [(idKey, JVal.jstr emptyStr)] (JVal.jstr emptyStr) rfl (by simp [objFind])
      rfl rfl).2

/-- C3: the planner computes exactly the wire-contract sizes and names:
one shared 16-character uid across the five standardize segments, a fresh
uid for the face-sizes plan, and the faces plan reuses the uid it is
given. -/
theorem C3_planner_contract (draws draws2 : Fin 16 → Fin 16)
    (total_verts total_edges total_objects total_faces total_face_vertices : Nat)
    (uid : String) :
    (plan_standardize_segments draws total_verts total_edges total_objects).uid =
        new_uid16 draws ∧
    (new_uid16 draws).length = 16 ∧
    (plan_standardize_segments draws total_verts total_edges total_objects).verts_size =
        total_verts * 3 * 4 ∧
    (plan_standardize_segments draws total_verts total_edges total_objects).edges_size =
        total_edges * 2 * 4 ∧
    (plan_standardize_segments draws total_verts total_edges total_objects).rotations_size =
        total_objects * 4 * 4 ∧
    (plan_standardize_segments draws total_verts total_edges total_objects).scales_size =
        total_objects * 3 * 4 ∧
    (plan_standardize_segments draws total_verts total_edges total_objects).offsets_size =
        total_objects * 3 * 4 ∧
    (plan_standardize_segments draws total_verts total_edges total_objects).verts_name =
        "sp_v_" ++ new_uid16 draws ∧
    (plan_standardize_segments draws total_verts total_edges total_objects).edges_name =
        "sp_e_" ++ new_uid16 draws ∧
    (plan_standardize_segments draws total_verts total_edges total_objects).rotations_name =
        "sp_r_" ++ new_uid16 draws ∧
    (plan_standardize_segments draws total_verts total_edges total_objects).scales_name =
        "sp_s_" ++ new_uid16 draws ∧
    (plan_standardize_segments draws total_verts total_edges total_objects).offsets_name =
        "sp_o_" ++ new_uid16 draws ∧
    (plan_face_sizes_segment draws2 total_faces).uid = new_uid16 draws2 ∧
    (plan_face_sizes_segment draws2 total_faces).face_sizes_name =
        "sp_fs_" ++ new_uid16 draws2 ∧
    (plan_face_sizes_segment draws2 total_faces).face_sizes_size = total_faces * 4 ∧
    (plan_faces_segment total_face_vertices uid).faces_name = "sp_f_" ++ uid ∧
    (plan_faces_segment total_face_vertices uid).faces_size = total_face_vertices * 4 := by
  refine ⟨rfl, ?_, rfl, rfl, rfl, rfl, rfl, rfl, rfl, rfl, rfl, rfl, rfl, rfl, rfl, rfl, rfl⟩
  rw [new_uid16]
  show (List.ofFn _).length = 16
  rw [List.length_ofFn]

/-- C5 fails as stated: the unresolvable-path failure is thrown before the
try block, resetting nothing.  A client whose process exited on its own
(child handle, context and both pipes still held, liveness reading false)
that then calls `start` with an unresolvable empty path fails, yet keeps
all four resources held — contradicting "on any failure ... no process,
context, or pipe handles remain held". -/
theorem C5_counterexample :
    (EngineState.start { ctx := true, child := true, inPipe := true, outPipe := true }
        false emptyStr emptyStr none).2 = Except.error errNoPath ∧
    (EngineState.start { ctx := true, child := true, inPipe := true, outPipe := true }
        false emptyStr emptyStr none).1.ctx = true ∧
    (EngineState.start { ctx := true, child := true, inPipe := true, outPipe := true }
        false emptyStr emptyStr none).1.child = true ∧
    (EngineState.start { ctx := true, child := true, inPipe := true, outPipe := true }
        false emptyStr emptyStr none).1.inPipe = true ∧
    (EngineState.start { ctx := true, child := true, inPipe := true, outPipe := true }
        false emptyStr emptyStr none).1.outPipe = true := by
  exact ⟨rfl, rfl, rfl, rfl, rfl⟩

/-- C5 (amended): `start` is idempotent — with a live process it returns
success at once with the state unchanged, whatever the spawn environment
would do; every failure after a successful path resolution (missing
binary, spawn failure) resets all four resources from any starting state,
leaving `is_running` false under every subsequent liveness reading; a
path-resolution failure is thrown before any initialization and leaves
the client state exactly unchanged — in particular a clean client stays
clean, holding nothing. -/
theorem C5_start_amended_contract (s : EngineState) (runningNow : Bool)
    (path fb : String) (spawn : Option Bool) :
    (s.child = true → runningNow = true →
      s.start runningNow path fb spawn = (s, Except.ok ())) ∧
    ((if path = emptyStr then fb else path) ≠ emptyStr → ∀ res msg,
      s.start runningNow path fb spawn = (res, Except.error msg) →
      res = EngineState.empty ∧ ∀ now2, res.is_running now2 = false) ∧
    ((if path = emptyStr then fb else path) = emptyStr →
      ¬s.is_running runningNow = true →
      s.start runningNow path fb spawn = (s, Except.error errNoPath)) := by
  refine ⟨?_, ?_, ?_⟩
  · intro hc hr
    have hrun : s.is_running runningNow = true := by
      rw [EngineState.is_running, hc, hr]
      rfl
    unfold EngineState.start
    rw [if_pos hrun]
  · intro hres res msg h
    have hempty : res = EngineState.empty := by
      by_cases hrun : s.is_running runningNow = true
      · unfold EngineState.start at h
        rw [if_pos hrun] at h
        exact absurd ((Prod.mk.injEq _ _ _ _).mp h).2 (by simp)
      · unfold EngineState.start at h
        rw [if_neg hrun, if_neg hres] at h
        cases spawn with
        | none => exact ((Prod.mk.injEq _ _ _ _).mp h).1.symm
        | some r =>
          cases r with
          | false => exact ((Prod.mk.injEq _ _ _ _).mp h).1.symm
          | true => simp at h
    refine ⟨hempty, ?_⟩
    intro now2
    rw [hempty, EngineState.is_running]
    rfl
  · intro hres hrun
    unfold EngineState.start
    rw [if_neg hrun, if_pos hres]

/-- Witness for C5 at concrete inputs: a spawn failure with a resolvable
path resets everything even from a fully-held state, and a clean client
failing path resolution stays clean, holding nothing. -/
theorem C5_witness :
    (EngineState.start { ctx := true, child := true, inPipe := true, outPipe := true }
        false enginePathA emptyStr none).1 = EngineState.empty ∧
    EngineState.start EngineState.empty false emptyStr emptyStr none =
      (EngineState.empty, Except.error errNoPath) :=
  ⟨((C5_start_amended_contract
        { ctx := true, child := true, inPipe := true, outPipe := true }
        false enginePathA emptyStr none).2.1 (by decide) EngineState.empty
        errSpawnFailed rfl).1,
   (C5_start_amended_contract EngineState.empty false emptyStr emptyStr none).2.2
      rfl (by decide)⟩

/-- C8: `stop` on a channel holding no child returns at once — no sleep,
no sentinel — and on every path (including when the child never confirms
termination, i.e. every liveness reading is true) it clears all owned
resources, so a second `stop` in a row also returns at once; the bounded
sleeps never exceed 3000 ms. -/
theorem C8_stop_idempotent_bounded (s : EngineState) (b b2 : StopBehavior)
    (hinv : s.child = false → s = EngineState.empty) :
    (s.child = false → s.stop b = { state := s, sleptMs := 0, sentSentinel := false }) ∧
    (s.stop b).state = EngineState.empty ∧
    (s.stop b).sleptMs ≤ 3000 ∧
    EngineState.stop (s.stop b).state b2 =
      { state := EngineState.empty, sleptMs := 0, sentSentinel := false } := by
  cases hc : s.child with
  | false =>
    have hs := hinv hc
    subst hs
    refine ⟨fun _ => rfl, rfl, ?_, ?_⟩
    · exact Nat.zero_le 3000
    · rfl
  | true =>
    have hstop : s.stop b =
        { state := EngineState.empty
          sleptMs := if b.runAtStart then 2000 + (if b.runAfterQuit then 1000 else 0) else 0
          sentSentinel := b.runAtStart } := by
      rw [EngineState.stop, if_neg (by rw [hc]; simp)]
    refine ⟨?_, ?_, ?_, ?_⟩
    · intro hcf
      exact Bool.noConfusion hcf
    · rw [hstop]
    · rw [hstop]
      by_cases h1 : b.runAtStart = true
      · by_cases h2 : b.runAfterQuit = true
        · simp [h1, h2]
        · simp [h1, h2]
      · simp [h1]
    · rw [hstop]
      rfl

/-- Witness for C8 at concrete inputs: a never-started channel stops at
once with no sleep and no sentinel. -/
theorem C8_witness :
    EngineState.stop EngineState.empty
        { runAtStart := false, runAfterQuit := false, runAfterTerm := false,
          runAtCleanup := false } =
      { state := EngineState.empty, sleptMs := 0, sentSentinel := false } :=
  (C8_stop_idempotent_bounded EngineState.empty
      { runAtStart := false, runAfterQuit := false, runAfterTerm := false,
        runAtCleanup := false }
      { runAtStart := false, runAfterQuit := false, runAfterTerm := false,
        runAtCleanup := false }
      (fun _ => rfl)).1 rfl

/-- C6: `create` with size 0 always fails, and afterwards the segment is
closed and holds no shared-memory handle; the OS namespace is untouched.
The hypothesis is the representation invariant that a closed segment holds
a null handle, which every reachable state satisfies. -/
theorem C6_create_zero_size_fails (sys : SegSys) (freshUid name : String) (addr : Nat)
    (hwf : sys.seg.closed = true → sys.seg.handle = SharedMemoryHandle.null) :
    (sys.create freshUid name 0 addr).2 = Except.error errZeroSize ∧
    (sys.create freshUid name 0 addr).1.seg.is_closed = true ∧
    (sys.create freshUid name 0 addr).1.seg.handle = SharedMemoryHandle.null ∧
    (sys.create freshUid name 0 addr).1.ns = sys.ns := by
  have hcreate : sys.create freshUid name 0 addr =
      ({ sys with seg := sys.seg.reset_handle }, Except.error errZeroSize) := by
    rw [SegSys.create]
    rfl
  rw [hcreate]
  refine ⟨rfl, ?_, ?_, rfl⟩
  · rw [Segment.is_closed, Segment.reset_handle]
    by_cases hc : sys.seg.closed = true
    · rw [if_pos hc]; exact hc
    · rw [if_neg hc]
  · rw [Segment.reset_handle]
    by_cases hc : sys.seg.closed = true
    · rw [if_pos hc]; exact hwf hc
    · rw [if_neg hc]
      rfl

/-- Witness for C6 at concrete inputs: zero-size create on a fresh
segment. -/
theorem C6_witness :
    (SegSys.create { ns := [], seg := Segment.init } uidA segTestName 0 1).2 =
      Except.error errZeroSize ∧
    (SegSys.create { ns := [], seg := Segment.init } uidA segTestName 0 1).1.seg.is_closed =
      true :=
  ⟨(C6_create_zero_size_fails { ns := [], seg := Segment.init } uidA segTestName 1
      (fun _ => rfl)).1,
   (C6_create_zero_size_fails { ns := [], seg := Segment.init } uidA segTestName 1
      (fun _ => rfl)).2.1⟩

/-- A reset segment is always closed. -/
theorem reset_handle_closed (s : Segment) : s.reset_handle.closed = true := by
  rw [Segment.reset_handle]
  by_cases hc : s.closed = true
  · rw [if_pos hc]; exact hc
  · rw [if_neg hc]

/-- Unlinking a name removes it from the namespace. -/
theorem nsLookup_nsErase (ns : List (String × Nat)) (n : String) :
    nsLookup (nsErase ns n) n = none := by
  induction ns with
  | nil => rfl
  | cons kv rest ih =>
    by_cases h : kv.1 = n
    · simpa [nsErase, h] using ih
    · simpa [nsErase, nsLookup, h] using ih

/-- `create` preserves the open-implies-fully-mapped invariant: every
branch either leaves the segment closed or installs a handle that passed
the non-null-address, non-zero-size guard. -/
theorem segInv_create (sys : SegSys) (uid name : String) (size addr : Nat) :
    SegInv (sys.create uid name size addr).1.seg := by
  intro hopen
  by_cases hsz : size = 0
  · rw [show (sys.create uid name size addr).1.seg = sys.seg.reset_handle from by
      simp [SegSys.create, hsz]] at hopen
    rw [reset_handle_closed sys.seg] at hopen
    exact Bool.noConfusion hopen
  · by_cases hex : (nsLookup sys.ns (if name = emptyStr then "pshm_" ++ uid else name)).isSome
    · rw [show (sys.create uid name size addr).1.seg =
          { sys.seg.reset_handle with
            segName := if name = emptyStr then "pshm_" ++ uid else name } from by
        simp [SegSys.create, create_segment, hsz, hex]] at hopen

      have hcl : ({ sys.seg.reset_handle with
          segName := if name = emptyStr then "pshm_" ++ uid else name } : Segment).closed =
          true := reset_handle_closed sys.seg
      rw [hcl] at hopen
      exact Bool.noConfusion hopen
    · by_cases hbad : addr = 0
      · rw [show (sys.create uid name size addr).1.seg =
            { handle := { address := addr, size := size, shm := true, region := true }
              segName := if name = emptyStr then "pshm_" ++ uid else name
              closed := true } from by
          simp [SegSys.create, create_segment, hsz, hex, hbad]] at hopen
        exact Bool.noConfusion hopen
      · rw [show (sys.create uid name size addr).1.seg =
            { handle := { address := addr, size := size, shm := true, region := true }
              segName := if name = emptyStr then "pshm_" ++ uid else name
              closed := false } from by
          simp [SegSys.create, create_segment, hsz, hex, hbad]]
        exact ⟨hbad, Nat.pos_of_ne_zero hsz⟩

/-- `open` preserves the open-implies-fully-mapped invariant. -/
theorem segInv_openSeg (sys : SegSys) (name : String) (addr : Nat) :
    SegInv (sys.openSeg name addr).1.seg := by
  intro hopen
  by_cases hname : name = emptyStr
  · rw [show (sys.openSeg name addr).1.seg = sys.seg.reset_handle from by
      simp [SegSys.openSeg, hname]] at hopen
    rw [reset_handle_closed sys.seg] at hopen
    exact Bool.noConfusion hopen
  · cases hlk : nsLookup sys.ns name with
    | none =>
      rw [show (sys.openSeg name addr).1.seg =
          { sys.seg.reset_handle with segName := name } from by
        simp [SegSys.openSeg, open_segment, hname, hlk]] at hopen
      have hcl : ({ sys.seg.reset_handle with segName := name } : Segment).closed = true :=
        reset_handle_closed sys.seg
      rw [hcl] at hopen
      exact Bool.noConfusion hopen
    | some sz =>
      by_cases hbad : addr = 0 ∨ sz = 0
      · rw [show (sys.openSeg name addr).1.seg =
            { handle := { address := addr, size := sz, shm := true, region := true }
              segName := name
              closed := true } from by
          simp [SegSys.openSeg, open_segment, hname, hlk, hbad]] at hopen
        exact Bool.noConfusion hopen
      · rw [show (sys.openSeg name addr).1.seg =
            { handle := { address := addr, size := sz, shm := true, region := true }
              segName := name
              closed := false } from by
          simp [SegSys.openSeg, open_segment, hname, hlk, hbad]]
        have hs := not_or.mp hbad
        exact ⟨hs.1, Nat.pos_of_ne_zero hs.2⟩

/-- Every client-side segment operation preserves the invariant. -/
theorem segInv_applyOp (sys : SegSys) (op : SegOp) : SegInv (sys.applyOp op).seg := by
  cases op with
  | createOp uid name size addr => exact segInv_create sys uid name size addr
  | openOp name addr => exact segInv_openSeg sys name addr
  | closeOp =>
    intro hopen
    rw [show (sys.applyOp SegOp.closeOp).seg = sys.seg.reset_handle from rfl] at hopen
    rw [reset_handle_closed sys.seg] at hopen
    exact Bool.noConfusion hopen

/-- The invariant is carried through any sequence of operations. -/
theorem segInv_runOps (ops : List SegOp) :
    ∀ sys : SegSys, SegInv sys.seg → SegInv (sys.runOps ops).seg := by
  induction ops with
  | nil => intro sys h; exact h
  | cons op rest ih =>
    intro sys h
    exact ih (sys.applyOp op) (segInv_applyOp sys op)

/-- C7: `close` releases only the local handle and never changes the OS
namespace; after `create(name, size)` with `size > 0` followed by
`close()`, the named OS object is still present with its size, a later
`open(name)` from a fresh segment succeeds, and only an explicit unlink
removes the name. -/
theorem C7_close_keeps_os_object (ns0 : List (String × Nat)) (seg : Segment)
    (uid name : String) (size addr addr2 : Nat)
    (hsize : size ≠ 0) (haddr : addr ≠ 0) (haddr2 : addr2 ≠ 0)
    (hname : name ≠ emptyStr) (hfresh : nsLookup ns0 name = none) :
    (∀ sys : SegSys, (SegSys.close sys).ns = sys.ns) ∧
    (SegSys.create { ns := ns0, seg := seg } uid name size addr).2 = Except.ok () ∧
    nsLookup (SegSys.close (SegSys.create { ns := ns0, seg := seg } uid name size addr).1).ns
        name = some size ∧
    (SegSys.openSeg
        { ns := (SegSys.close
            (SegSys.create { ns := ns0, seg := seg } uid name size addr).1).ns,
          seg := Segment.init } name addr2).2 = Except.ok () ∧
    nsLookup
        (nsErase
          (SegSys.close (SegSys.create { ns := ns0, seg := seg } uid name size addr).1).ns
          name) name = none := by
  have hnsAfter :
      (SegSys.close (SegSys.create { ns := ns0, seg := seg } uid name size addr).1).ns =
        (name, size) :: ns0 := by
    rw [show ∀ sys : SegSys, (SegSys.close sys).ns = sys.ns from fun _ => rfl]
    simp [SegSys.create, create_segment, hsize, hname, hfresh, haddr]
  refine ⟨fun _ => rfl, ?_, ?_, ?_, ?_⟩
  · simp [SegSys.create, create_segment, hsize, hname, hfresh, haddr]
  · rw [hnsAfter]
    simp [nsLookup]
  · rw [hnsAfter]
    simp [SegSys.openSeg, open_segment, nsLookup, hname, haddr2, hsize]
  · rw [hnsAfter]
    exact nsLookup_nsErase ((name, size) :: ns0) name

/-- Witness for C7 at concrete inputs. -/
theorem C7_witness :
    nsLookup
        (SegSys.close
          (SegSys.create { ns := [], seg := Segment.init } uidA segTestName 4 1).1).ns
        segTestName = some 4 ∧
    (SegSys.openSeg
        { ns := (SegSys.close
            (SegSys.create { ns := [], seg := Segment.init } uidA segTestName 4 1).1).ns,
          seg := Segment.init } segTestName 2).2 = Except.ok () :=
  ⟨(C7_close_keeps_os_object [] Segment.init uidA segTestName 4 1 2
      (by decide) (by decide) (by decide) (by decide) rfl).2.2.1,
   (C7_close_keeps_os_object [] Segment.init uidA segTestName 4 1 2
      (by decide) (by decide) (by decide) (by decide) rfl).2.2.2.1⟩

/-- C9 fails as stated: the accessor `size()` reads `handle_.size`, which
`release_handle` zeroes, so after a successful create followed by a close
the segment reports size 0 — the size is not greater than zero always. -/
theorem C9_counterexample :
    (SegSys.runOps { ns := [], seg := Segment.init }
        [SegOp.createOp uidA segTestName 4 1, SegOp.closeOp]).seg.size = 0 ∧
    (SegSys.runOps { ns := [], seg := Segment.init }
        [SegOp.createOp uidA segTestName 4 1, SegOp.closeOp]).seg.is_closed = true := by
  exact ⟨rfl, rfl⟩

/-- C9 (amended): after every sequence of create/open/close operations
from a fresh segment, the segment is either fully mapped or fully closed:
whenever `is_closed()` is false, `address()` is non-null and `size()` is
positive (the size reads 0 while the segment is closed). -/
theorem C9_no_partial_mapping (ns0 : List (String × Nat)) (ops : List SegOp)
    (hopen : (SegSys.runOps { ns := ns0, seg := Segment.init } ops).seg.is_closed = false) :
    (SegSys.runOps { ns := ns0, seg := Segment.init } ops).seg.address ≠ 0 ∧
    (SegSys.runOps { ns := ns0, seg := Segment.init } ops).seg.size > 0 := by
  have hinit : SegInv (Segment.init) := fun h => Bool.noConfusion h
  exact segInv_runOps ops { ns := ns0, seg := Segment.init } hinit hopen

/-- Witness for C9 at concrete inputs: after a successful create the
segment is open, mapped at a non-null address with positive size. -/
theorem C9_witness :
    (SegSys.runOps { ns := [], seg := Segment.init }
        [SegOp.createOp uidA segTestName 4 1]).seg.address ≠ 0 ∧
    (SegSys.runOps { ns := [], seg := Segment.init }
        [SegOp.createOp uidA segTestName 4 1]).seg.size > 0 :=
  C9_no_partial_mapping [] [SegOp.createOp uidA segTestName 4 1] rfl
